import Mathlib

/-!
Verification of the declarative browser-automation workflow engine
(`appCourser4.py`, `build_exam_file.py`).

Shallow embedding conventions:
- JSON documents are modelled by the inductive type `JValue`; a parsed JSON
  object is an association list of string keys in insertion order (Python
  dicts preserve insertion order and have unique keys).
- Python string helpers (`str.strip`, `str.split()` with no argument,
  truthiness of strings and of `None`) are reimplemented character by
  character; `None` is `Option.none`.
- Filesystem and browser side effects are abstracted: the assembler takes
  the directory listing as a list of (filename, parsed content) pairs in
  listing order, and a step executor takes the outcome of its primitive
  locator operations (match count, whether the physical click fails) as
  explicit parameters.  Fallible code returns `Except`.
-/

/-- Parsed JSON value.  Objects are association lists in insertion order. -/
inductive JValue where
  | str (s : String)
  | num (n : Int)
  | bool (b : Bool)
  | null
  | arr (items : List JValue)
  | obj (fields : List (String × JValue))

/-- Python whitespace characters (the set used by `str.strip` / `str.split`). -/
def pyIsSpace (c : Char) : Bool :=
  c = ' ' || c = '\t' || c = '\n' || c = '\r' || c = '\x0b' || c = '\x0c'

/-- `str.strip()` on a character list. -/
def pyStripList (cs : List Char) : List Char :=
  ((cs.dropWhile pyIsSpace).reverse.dropWhile pyIsSpace).reverse

/-- Python `s.strip()`. -/
def pyStrip (s : String) : String :=
  String.mk (pyStripList s.toList)

/-- Helper for `pySplitWs`: accumulates the current word (reversed). -/
def pySplitAux : List Char → List Char → List String
  | [], acc => if acc.isEmpty then [] else [String.mk acc.reverse]
  | c :: cs, acc =>
    if pyIsSpace c then
      if acc.isEmpty then pySplitAux cs [] else String.mk acc.reverse :: pySplitAux cs []
    else
      pySplitAux cs (c :: acc)

/-- Python `s.split()` with no argument: split on runs of whitespace,
discarding empty words. -/
def pySplitWs (s : String) : List String :=
  pySplitAux s.toList []

/-- Python truthiness of an optional string (`None` and `""` are falsy). -/
def pyTruthy : Option String → Bool
  | none => false
  | some s => !(s = "")

/-- Python `x or dflt` for an optional string. -/
def pyOrStr (x : Option String) (dflt : String) : String :=
  if pyTruthy x then x.getD dflt else dflt

/-- Lowercase a string character by character (`str.lower`). -/
def pyLower (s : String) : String := String.mk (s.toList.map Char.toLower)

/-- Does the string start with a dot (`s.startswith(".")`)? -/
def startsWithDot (s : String) : Bool :=
  match s.toList with
  | c :: _ => c = '.'
  | [] => false

/-- Join a list of strings with a separator (Python `sep.join`). -/
def joinWith (sep : String) : List String → String
  | [] => ""
  | [x] => x
  | x :: y :: rest => x ++ sep ++ joinWith sep (y :: rest)

/-! ### Workflow assembler (`build_exam_file.merge_logic`)

The assembler is modelled on the directory listing: `files` is the list of
(filename, parsed JSON content) pairs in `os.listdir` order.  Fragments that
fail JSON parsing, the directory-existence check and the `.json` check on the
output path are outside the model; `merge_logic` here covers lines 27-111 of
`build_exam_file.py` (filtering, numeric sort, per-fragment splicing,
concatenation, the empty-merge abort and the final `group_excel` wrap).
The output `none` models `return False` (no output file written). -/

/-- Regex `^\d+\.json$` (case-insensitive on the suffix): a non-empty run of
digits followed by `.json`. -/
def isNumericJsonName (s : String) : Bool :=
  let cs := s.toList
  let n := cs.length
  decide (5 < n) &&
    ((cs.drop (n - 5)).map Char.toLower == ['.', 'j', 's', 'o', 'n']) &&
    (cs.take (n - 5)).all Char.isDigit

/-- Value of a digit character. -/
def digitVal (c : Char) : Nat := c.toNat - '0'.toNat

/-- Numeric value of a digit string (`int(os.path.splitext(name)[0])`). -/
def digitsToNat : List Char → Nat → Nat
  | [], acc => acc
  | c :: cs, acc => digitsToNat cs (acc * 10 + digitVal c)

/-- Integer value of the numeric stem of a fragment filename. -/
def stemKey (s : String) : Nat :=
  let cs := s.toList
  digitsToNat (cs.take (cs.length - 5)) 0

/-- Sort key order used by `sorted(json_files, key=...)`: compare integer
stems of the filenames. -/
def stemLeRel (a b : String × JValue) : Prop := stemKey a.1 ≤ stemKey b.1

instance : DecidableRel stemLeRel := fun _ _ => Nat.decLe _ _

instance : IsTotal (String × JValue) stemLeRel := ⟨fun _ _ => Nat.le_total _ _⟩

instance : IsTrans (String × JValue) stemLeRel := ⟨fun _ _ _ h1 h2 => Nat.le_trans h1 h2⟩

/-- Strict version of the stem order (used to state uniqueness of the sorted
arrangement when stems are distinct). -/
def stemLtRel (a b : String × JValue) : Prop := stemKey a.1 < stemKey b.1

instance : DecidableRel stemLtRel := fun _ _ => Nat.decLt _ _

/-- Association-list lookup modelling `dict.get` (dict keys are unique). -/
def jLookup : List (String × JValue) → String → Option JValue
  | [], _ => none
  | (k, v) :: rest, key => if k = key then some v else jLookup rest key

/-- `content and isinstance(content[0], dict) and content[0].get("type") ==
"group_excel"` on the item list of a fragment. -/
def leadingIsGroupExcel : List JValue → Bool
  | JValue.obj fs :: _ =>
    match jLookup fs "type" with
    | some (JValue.str t) => t == "group_excel"
    | _ => false
  | _ => false

/-- `content[0].get("actions", [])` followed by the `isinstance(actions, list)`
check: `none` models the error branch (invalid `actions`), `some []` the
missing-key default. -/
def headerActions : JValue → Option (List JValue)
  | JValue.obj fs =>
    match jLookup fs "actions" with
    | some (JValue.arr l) => some l
    | none => some []
    | some _ => none
  | _ => none

/-- Items a single fragment contributes to `merged_data` (lines 53-70 of
`build_exam_file.py`).  Error branches (non-array fragment, invalid
`actions`) contribute nothing and are recorded separately in the log. -/
def fragmentContribution (excelGiven : Bool) (content : JValue) : List JValue :=
  match content with
  | JValue.arr items =>
    if excelGiven && leadingIsGroupExcel items then
      match items with
      | hd :: _ => (headerActions hd).getD []
      | [] => []
    else items
  | _ => []

/-- Whether processing the fragment appends the additional-elements warning
(line 59-60 of `build_exam_file.py`). -/
def fragmentWarns (excelGiven : Bool) (content : JValue) : Bool :=
  match content with
  | JValue.arr items =>
    excelGiven && leadingIsGroupExcel items && decide (1 < items.length)
  | _ => false

/-- Truthiness of the `excel_full_path` argument. -/
def excelTruthy (e : Option String) : Bool := pyTruthy e

/-- The `group_excel` wrapper object built at lines 103-110 of
`build_exam_file.py`. -/
def groupExcelWrap (path : String) (merged : List JValue) : JValue :=
  JValue.obj
    [("type", JValue.str "group_excel"), ("file", JValue.str path),
     ("start_row", JValue.num 2), ("actions", JValue.arr merged)]

/-- `merge_logic` of `build_exam_file.py` over the abstracted directory
listing.  `none` models `return False`.  Python `sorted` is a stable sort by
the integer stem; `List.insertionSort` with the non-strict stem order is
also stable, hence extensionally the same function. -/
def merge_logic (files : List (String × JValue)) (excel : Option String) :
    Option (List JValue) :=
  let json_files := files.filter (fun f => isNumericJsonName f.1)
  if json_files.isEmpty then none
  else
    let sortedFiles := List.insertionSort stemLeRel json_files
    let et := excelTruthy excel
    let merged := (sortedFiles.map (fun f => fragmentContribution et f.2)).flatten
    if merged.isEmpty then none
    else if et then some [groupExcelWrap (excel.getD "") merged] else some merged

/-- The item list of a fragment that is a JSON array (the plain `Lk` of the
specification), `[]` otherwise. -/
def jItems : JValue → List JValue
  | JValue.arr l => l
  | _ => []

/-- Is the fragment content a JSON array? -/
def isJsonArray : JValue → Bool
  | JValue.arr _ => true
  | _ => false

/-- Does the fragment content (as a whole value) start with a `group_excel`
header? -/
def leadingGroupExcel : JValue → Bool
  | JValue.arr items => leadingIsGroupExcel items
  | _ => false

/-! ### Selector builder (`normalize_class_selector`, `build_css_selector`) -/

/-- `normalize_class_selector` (lines 342-352 of `appCourser4.py`). -/
def normalize_class_selector (cls_value : Option String) : String :=
  match cls_value with
  | none => ""
  | some v =>
    if v = "" then ""
    else
      let s := pyStrip v
      if startsWithDot s then s
      else
        let parts := pySplitWs s
        if parts.isEmpty then "" else "." ++ joinWith "." parts

/-- `build_css_selector` (lines 355-369 of `appCourser4.py`). -/
def build_css_selector (tag cls attr value : Option String) : String :=
  let t := pyStrip (pyOrStr tag "*")
  let c := normalize_class_selector cls
  let a :=
    if pyTruthy attr && value.isSome then
      "[" ++ attr.getD "" ++ "=\"" ++ value.getD "" ++ "\"]"
    else if pyTruthy attr then "[" ++ attr.getD "" ++ "]"
    else ""
  t ++ c ++ a

/-- The tag part exactly as the specification words it: a missing (or, with
Python `or`, empty) tag yields `*`, otherwise the tag itself. -/
def claimTagPart : Option String → String
  | none => "*"
  | some t => if t = "" then "*" else t

/-- The class part exactly as the specification words it: a class string
already beginning with `.` is passed through verbatim; otherwise the
whitespace-separated tokens c1 ... cn become `.c1.c2...cn`. -/
def claimClassPart : Option String → String
  | none => ""
  | some s =>
    if startsWithDot s then s
    else
      match pySplitWs s with
      | [] => ""
      | parts => "." ++ joinWith "." parts

/-- The attribute part exactly as the specification words it: `attr` with a
non-null value yields `[attr="value"]`, `attr` alone yields `[attr]`. -/
def claimAttrPart : Option String → Option String → String
  | some a, some v => "[" ++ a ++ "=\"" ++ v ++ "\"]"
  | some a, none => "[" ++ a ++ "]"
  | none, _ => ""

/-! ### Step executors: click and write (sleep and payload handling)

The locator environment is abstracted: `count` is the live match count of
the built selector, `index` the effective `array_select_one` (0 when the
step omits it), `clickFails` whether the physical click/wait raises.
The trace records the observable actions relevant to the claims. -/

/-- Observable events of an executor run. -/
inductive Ev where
  | clicked
  | typed (payload : String)
  | slept (s : Nat)

/-- `step_sleep` (lines 428-436): sleeps only for a positive value. -/
def sleepEvents : Option Nat → List Ev
  | none => []
  | some s => if 0 < s then [Ev.slept s] else []

/-- `wait_and_click` (lines 372-425): `ok true` = clicked, `ok false` =
failure suppressed by `ignore_error`, `error` = raised. -/
def wait_and_click (count index : Nat) (clickFails ignore_error : Bool) :
    Except String Bool :=
  if count = 0 then
    if ignore_error then Except.ok false else Except.error "No matching elements found."
  else if count ≤ index then
    if ignore_error then Except.ok false
    else Except.error "array_select_one index out of range"
  else if clickFails then
    if ignore_error then Except.ok false else Except.error "Element interaction failed"
  else Except.ok true

/-- `exec_step_click` (lines 653-713), conditional-`if` branch aside: on an
ignored failure (`wait_and_click` returned `False`) the executor returns
early, skipping `step_sleep`; only the successful path reaches the final
`step_sleep` call at line 713. -/
def exec_step_click (count index : Nat) (clickFails ignore_error : Bool)
    (sleep : Option Nat) : Except String (List Ev) :=
  match wait_and_click count index clickFails ignore_error with
  | Except.error e => Except.error e
  | Except.ok success =>
    if !success && ignore_error then Except.ok []
    else Except.ok (Ev.clicked :: sleepEvents sleep)

/-- The message of the missing-payload error raised by `exec_step_write`. -/
def missingWriteMsg : String := "Missing \"write\" or \"value\" for write step."

/-- `exec_step_write` (lines 716-787): the payload is the `get_key` result
for `write`/`value`/`text`; `if not text` rejects both an absent and an
empty payload before the element is touched.  The function body contains no
`step_sleep` call at all, so the `sleep` argument never produces an event. -/
def exec_step_write (payload : Option String) (count index : Nat)
    (ignore_error : Bool) (sleep : Option Nat) : Except String (List Ev) :=
  match payload with
  | none => Except.error missingWriteMsg
  | some t =>
    if t = "" then Except.error missingWriteMsg
    else if count = 0 then
      if ignore_error then Except.ok [] else Except.error "No elements found for writing"
    else if count ≤ index then
      if ignore_error then Except.ok []
      else Except.error "array_select_one index out of range"
    else Except.ok [Ev.typed t]

/-! ### `get_key` (lines 319-330) over string-valued step fields -/

/-- Exact-key lookup (`key in d` then `d[key]`). -/
def lookupKey : List (String × String) → String → Option String
  | [], _ => none
  | (k, v) :: rest, key => if k = key then some v else lookupKey rest key

/-- First alias hit, in alias order. -/
def lookupAlts (d : List (String × String)) : List String → Option String
  | [] => none
  | a :: as =>
    match lookupKey d a with
    | some v => some v
    | none => lookupAlts d as

/-- Case-insensitive fallback over the dict keys in insertion order. -/
def lookupKeyCI : List (String × String) → String → Option String
  | [], _ => none
  | (k, v) :: rest, key =>
    if pyLower k = pyLower key then some v else lookupKeyCI rest key

/-- `get_key(d, key, *alts)` restricted to string values: exact key first,
then the aliases in order, then the case-insensitive fallback on the
primary key only. -/
def get_key (d : List (String × String)) (key : String) (alts : List String) :
    Option String :=
  match lookupKey d key with
  | some v => some v
  | none =>
    match lookupAlts d alts with
    | some v => some v
    | none => lookupKeyCI d key

/-- The write payload of a step: `get_key(step, "write", "value", "text")`. -/
def writePayload (step : List (String × String)) : Option String :=
  get_key step "write" ["value", "text"]

/-! ### Download extension decision (`exec_step_download_from_link`,
`download_requests`) -/

/-- The literal list at line 1254 of `appCourser4.py`. -/
def subtitle_extensions : List String := ["vtt", "str"]

/-- Lines 1253-1258: strip and lowercase the resolved extension, drop a
leading dot, and test membership in `subtitle_extensions`. -/
def is_subtitle (file_extension : String) : Bool :=
  let c := pyLower (pyStrip file_extension)
  let c2 := if startsWithDot c then String.mk (c.toList.drop 1) else c
  subtitle_extensions.contains c2

/-- Which download path a `download_from_link` step takes for a resolved
extension (lines 1268-1289). -/
inductive DownloadMethod where
  | subtitleProtocol
  | directHTTP

/-- The dispatch at line 1268: subtitle sub-protocol iff `is_subtitle`. -/
def download_dispatch (file_extension : String) : DownloadMethod :=
  if is_subtitle file_extension then DownloadMethod.subtitleProtocol
  else DownloadMethod.directHTTP

/-- HTTP status codes accepted by `download_requests` (line 1024). -/
def acceptedStatus (s : Nat) : Bool := s = 200 || s = 202 || s = 206

/-- The retry loop of `download_requests` (lines 1014-1038): `outcomes`
gives each attempt its response status (`none` = request raised); at most
`retries` attempts, returning success on the first accepted status. -/
def drAttempts : Nat → List (Option Nat) → Bool
  | 0, _ => false
  | _ + 1, [] => false
  | k + 1, o :: rest =>
    match o with
    | some s => if acceptedStatus s then true else drAttempts k rest
    | none => drAttempts k rest

/-- `download_requests(url, out_path)` with the default `retries=3`. -/
def download_requests (outcomes : List (Option Nat)) : Bool :=
  drAttempts 3 outcomes

/-! ### Excel row loading and `group_excel` iteration -/

/-- Is a row fully blank (`all(c.strip() == "" for c in clean_row)`)?  A cell
is blank iff every character is whitespace. -/
def rowBlank (r : List String) : Bool :=
  r.all (fun c => c.toList.all pyIsSpace)

/-- `load_excel_rows` (lines 47-88): skip rows before `start_row` (1-based),
then collect rows up to (excluding) the first fully-blank row.  Cells are
already strings here (`None` cells are the empty string). -/
def load_excel_rows (sheet : List (List String)) (start_row : Nat) :
    List (List String) :=
  (sheet.drop (start_row - 1)).takeWhile (fun r => !rowBlank r)

/-- The per-iteration blank re-check of `exec_step_group_excel` (lines
217-223): count the rows actually processed, stopping at a blank row. -/
def group_excel_iter_count : List (List String) → Nat
  | [] => 0
  | r :: rs => if rowBlank r then 0 else group_excel_iter_count rs + 1

/-- Number of times `exec_step_group_excel` (lines 188-286) runs its
`actions` list: one run per row returned by `load_excel_rows`, subject to
the defensive blank re-check. -/
def exec_step_group_excel (sheet : List (List String)) (start_row : Nat) : Nat :=
  group_excel_iter_count (load_excel_rows sheet start_row)

/-! ### Ignore-flag scoping (`exec_step_array`, `exec_step_group_action`,
and the dispatcher loop of `run`)

A step is abstracted to its failure behaviour: an `atom` is any leaf
executor (`fails` = its primitive operation raises, `ignore` = its own
`ignore` flag, under which the executor itself catches and warns).  An
`arr` step runs child click matchers: a child failure is caught inside
`wait_and_click` iff the child's own `ignore` flag is set, otherwise the
exception escapes `exec_step_array` (lines 850-891).  A `group` step
catches a nested failure iff `action_ignore or ignore_error` (lines
1445-1452), i.e. the action's own flag or the group's flag. -/

/-- A child click matcher of an `array` step. -/
structure Child where
  fails : Bool
  ignore : Bool

/-- Abstracted workflow step. -/
inductive WStep where
  | atom (fails ignore : Bool)
  | arr (ignore : Bool) (children : List Child)
  | group (ignore : Bool) (actions : List WStep)

/-- The step's own `ignore` field, as read by `get_key(step, "ignore")` both
in the dispatcher and in the `group_action` handler. -/
def ignoreFlag : WStep → Bool
  | WStep.atom _ i => i
  | WStep.arr i _ => i
  | WStep.group i _ => i

mutual

/-- Does executing the step raise an exception out of its executor? -/
def stepRaises : WStep → Bool
  | WStep.atom f i => f && !i
  | WStep.arr _ cs => cs.any (fun c => c.fails && !c.ignore)
  | WStep.group gi acts => groupRaisesAux gi acts

/-- The action loop of `exec_step_group_action`: a failing nested action is
suppressed iff its own flag or the group flag is set, otherwise it
re-raises (aborting the remaining actions and parents). -/
def groupRaisesAux : Bool → List WStep → Bool
  | _, [] => false
  | gi, a :: rest =>
    if stepRaises a && !(ignoreFlag a || gi) then true else groupRaisesAux gi rest

end

/-- The dispatcher loop of `run` (lines 1572-1634): the workflow aborts
(a fatal error is recorded and dispatch stops) iff some step raises out of
its executor and its own `ignore` flag is false. -/
def wfAborts (workflow : List WStep) : Bool :=
  workflow.any (fun s => stepRaises s && !(ignoreFlag s))

/-! ### Runner keep-alive (`run`, lines 1572-1658)

A step of the runner model carries only its outcome: `fails` = the
dispatched executor raised (or the step had no usable `type`), `ignore` =
the step's `ignore` flag.  The runner trace records the dispatch order, the
keep-alive wait, and the final outcome; closing the browser is an event the
code never emits (there is no `browser.close()` on any path; teardown
happens only after the poll loop has seen zero open pages). -/

/-- A top-level step as the runner sees it. -/
structure RStep where
  fails : Bool
  ignore : Bool

/-- Events of a runner execution. -/
inductive RunEv where
  | stepDispatched (i : Nat)
  | waitAllPagesClosed
  | reraised (i : Nat)
  | completedNormally
  | closedBrowser

/-- The dispatch loop: events plus the index of the fatal step, if any.
A step failing with `ignore` set is logged and skipped (still dispatched);
an unignored failure breaks the loop. -/
def runLoopEv : List RStep → Nat → List RunEv × Option Nat
  | [], _ => ([], none)
  | s :: rest, n =>
    if s.fails && !s.ignore then ([RunEv.stepDispatched n], some n)
    else
      (RunEv.stepDispatched n :: (runLoopEv rest (n + 1)).1, (runLoopEv rest (n + 1)).2)

/-- `run` after a successful launch: dispatch, then the poll-until-no-pages
loop (lines 1647-1654), then re-raise the fatal error (lines 1657-1658) or
finish normally. -/
def run (workflow : List RStep) : List RunEv :=
  (runLoopEv workflow 0).1 ++
    RunEv.waitAllPagesClosed ::
      (match (runLoopEv workflow 0).2 with
       | some i => [RunEv.reraised i]
       | none => [RunEv.completedNormally])

/-- Index of the first step that fails with `ignore` unset. -/
def firstFatal : List RStep → Option Nat
  | [] => none
  | s :: rest =>
    if s.fails && !s.ignore then some 0 else (firstFatal rest).map (fun i => i + 1)

/-- Number of steps the dispatcher reaches. -/
def dispatchCount (workflow : List RStep) : Nat :=
  match firstFatal workflow with
  | some i => i + 1
  | none => workflow.length

/-- The list `[n, n+1, ..., n+k-1]` of dispatched step indices. -/
def dispatchIdxs : Nat → Nat → List Nat
  | _, 0 => []
  | n, k + 1 => n :: dispatchIdxs (n + 1) k

/-! ### Persistent-profile launch (`run`, lines 1543-1555)

`launch_persistent_context` is called exactly once, outside any
`try`/`except`; there is no retry, no directory-suffix fallback and no
warning path for a singleton-lock conflict anywhere in the source. -/

/-- The single driver call: raises when the profile directory is locked by
another run. -/
def launch_persistent_context (profileLocked : Bool) : Except String Unit :=
  if profileLocked then Except.error "ProcessSingleton lock" else Except.ok ()

/-- Result of a successful launch phase. -/
structure LaunchResult where
  attempts : Nat
  profileDirUsed : String
  warned : Bool

/-- The launch phase of `run`: one attempt with the configured directory;
a lock error propagates to the caller unchanged. -/
def runnerLaunch (profile : String) (profileLocked : Bool) :
    Except String LaunchResult :=
  match launch_persistent_context profileLocked with
  | Except.ok _ =>
    Except.ok { attempts := 1, profileDirUsed := profile, warned := false }
  | Except.error e => Except.error e

/-! ### Theorems -/

/-! ### Helper lemmas -/

/-- A non-strictly key-sorted permutation of a strictly key-sorted list is
that list: the stem-sorted arrangement is unique when stems are distinct. -/
theorem sorted_perm_eq {α : Type} (key : α → Nat) :
    ∀ (l₂ l₁ : List α), l₁.Perm l₂ →
      l₁.Pairwise (fun a b => key a ≤ key b) →
      l₂.Pairwise (fun a b => key a < key b) → l₁ = l₂ := by
  intro l₂
  induction l₂ with
  | nil => intro l₁ hp _ _; exact hp.eq_nil
  | cons b t ih =>
    intro l₁ hp hs1 hs2
    cases l₁ with
    | nil => exact absurd hp.symm.eq_nil (by simp)
    | cons a s =>
      rcases List.pairwise_cons.mp hs1 with ⟨ha, hs1t⟩
      rcases List.pairwise_cons.mp hs2 with ⟨hb, hs2t⟩
      have hab : a = b := by
        by_contra hne
        have hbmem : b ∈ a :: s := hp.mem_iff.mpr (List.mem_cons_self b t)
        have hamem : a ∈ b :: t := hp.mem_iff.mp (List.mem_cons_self a s)
        have hbs : b ∈ s := by
          rcases List.mem_cons.mp hbmem with h | h
          · exact absurd h.symm hne
          · exact h
        have hat : a ∈ t := by
          rcases List.mem_cons.mp hamem with h | h
          · exact absurd h hne
          · exact h
        have h1 : key a ≤ key b := ha b hbs
        have h2 : key b < key a := hb a hat
        omega
      subst hab
      rw [ih s hp.cons_inv hs1t hs2t]

/-- The `group_action` handler suppresses a nested failure exactly when the
action's own flag or the group flag is set. -/
theorem groupRaises_eq (gi : Bool) :
    ∀ acts : List WStep,
      groupRaisesAux gi acts = (!gi && acts.any fun a => stepRaises a && !(ignoreFlag a))
  | [] => by simp [groupRaisesAux]
  | a :: rest => by
    rw [groupRaisesAux, groupRaises_eq gi rest]
    cases gi <;> cases h : stepRaises a <;> simp [h]

/-- C4: a nested failure is suppressed exactly when the nested step's own
`ignore` flag or the enclosing group's flag is set; an `array` step with
`ignore: true` never aborts the workflow, even when a child click whose own
`ignore` is false fails (the child's exception escapes `exec_step_array`
and is caught by the dispatcher under the array step's own flag). -/
theorem ignore_scoping_C4 :
    ∀ (gi : Bool) (acts : List WStep) (ai : Bool) (cs : List Child) (rest : List WStep),
      stepRaises (WStep.group gi acts)
          = (!gi && acts.any fun a => stepRaises a && !(ignoreFlag a))
        ∧ wfAborts (WStep.arr ai cs :: rest)
          = ((!ai && cs.any fun c => c.fails && !c.ignore) || wfAborts rest)
        ∧ wfAborts (WStep.arr true [⟨true, false⟩] :: rest) = wfAborts rest := by
  intro gi acts ai cs rest
  refine ⟨groupRaises_eq gi acts, ?_, ?_⟩
  · simp [wfAborts, stepRaises, ignoreFlag, Bool.and_comm]
  · simp [wfAborts, stepRaises, ignoreFlag]

/-- C9 counterexample: with the profile directory locked, `run` does not
retry with a suffixed directory and proceed — the launch error propagates
and the run never starts. -/
theorem no_lock_retry_C9 :
    runnerLaunch "automation_profile" true = Except.error "ProcessSingleton lock" := rfl

/-- C9 (amended): the persistent-profile launch is attempted exactly once,
with the configured directory and no warning; a singleton-lock conflict is
not caught and aborts the run. -/
theorem launch_single_attempt_C9 :
    ∀ (profile : String) (locked : Bool),
      runnerLaunch profile locked =
        if locked then Except.error "ProcessSingleton lock"
        else Except.ok ⟨1, profile, false⟩ := by
  intro profile locked
  cases locked <;> rfl

/-- C2: the subtitle sub-protocol is selected for resolved extensions
`.vtt` and `.str` — not `.srt`: `subtitle_extensions` spells the SubRip
extension `str`, so a `.srt` link is streamed by direct HTTP GET.  The
direct path accepts 200/202/206 within 3 attempts (1 s backoff between
attempts). -/
theorem subtitle_extension_decision_C2 :
    download_dispatch ".srt" = DownloadMethod.directHTTP
      ∧ download_dispatch ".vtt" = DownloadMethod.subtitleProtocol
      ∧ download_dispatch ".str" = DownloadMethod.subtitleProtocol
      ∧ download_requests [some 500, some 200] = true
      ∧ download_requests [some 404, some 404, some 404, some 200] = false :=
  ⟨rfl, rfl, rfl, rfl, rfl⟩

/-- C1 counterexample: a directory whose fragments are all empty lists
produces no output at all (`return False` at the empty-merge check), not
the claimed one-element `group_excel` list with empty `actions`. -/
theorem assembler_empty_merge_C1 :
    merge_logic [("1.json", JValue.arr [])] (some "s.xlsx") = none := rfl

/-- C3 counterexample: a click step with `sleep: 5` whose failure (zero
matches) is ignored returns without any sleep event, and a successful write
step with `sleep: 5` never sleeps (`exec_step_write` contains no
`step_sleep` call). -/
theorem ignored_click_and_write_skip_sleep_C3 :
    exec_step_click 0 0 false true (some 5) = Except.ok []
      ∧ exec_step_write (some "hello") 1 0 false (some 5)
        = Except.ok [Ev.typed "hello"] :=
  ⟨rfl, rfl⟩

/-- C5 counterexample: without a spreadsheet path the assembler does not
splice a fragment whose sole element is a `group_excel` header — the header
object itself is emitted, not its `actions`. -/
theorem splice_requires_excel_C5 :
    merge_logic
        [("1.json",
          JValue.arr
            [JValue.obj
              [("type", JValue.str "group_excel"),
               ("actions", JValue.arr [JValue.str "a"])]])] none
      = some
          [JValue.obj
            [("type", JValue.str "group_excel"),
             ("actions", JValue.arr [JValue.str "a"])]]
      ∧ (some
          [JValue.obj
            [("type", JValue.str "group_excel"),
             ("actions", JValue.arr [JValue.str "a"])]] : Option (List JValue))
        ≠ some [JValue.str "a"] :=
  ⟨rfl, by simp⟩

/-- C5 (amended): the `group_excel` splice happens exactly when a spreadsheet
path was supplied (and truthy): with one, the header's `actions` replace the
fragment (extra elements after the header only produce a warning); without
one, the fragment's elements pass through unchanged. -/
theorem splice_only_with_excel_C5 :
    ∀ (excel : Option String) (hd : JValue) (restItems acts : List JValue),
      leadingIsGroupExcel (hd :: restItems) = true →
      headerActions hd = some acts →
      (fragmentContribution (excelTruthy excel) (JValue.arr (hd :: restItems))
          = if excelTruthy excel then acts else hd :: restItems)
        ∧ fragmentWarns (excelTruthy excel) (JValue.arr (hd :: restItems))
          = (excelTruthy excel && decide (0 < restItems.length)) := by
  intro excel hd restItems acts hlead hacts
  constructor
  · cases het : excelTruthy excel <;> simp [fragmentContribution, hlead, hacts, het]
  · cases het : excelTruthy excel <;> simp [fragmentWarns, hlead, het]

/-- Witness for C5: a concrete header fragment with one trailing element,
spliced when the spreadsheet is present. -/
theorem splice_only_with_excel_C5_witness :
    fragmentContribution
        (excelTruthy (some "s.xlsx"))
        (JValue.arr
          [JValue.obj
            [("type", JValue.str "group_excel"),
             ("actions", JValue.arr [JValue.str "a"])],
           JValue.str "x"])
      = if excelTruthy (some "s.xlsx") then [JValue.str "a"]
        else [JValue.obj
          [("type", JValue.str "group_excel"),
           ("actions", JValue.arr [JValue.str "a"])], JValue.str "x"] :=
  (splice_only_with_excel_C5 (some "s.xlsx")
    (JValue.obj
      [("type", JValue.str "group_excel"),
       ("actions", JValue.arr [JValue.str "a"])])
    [JValue.str "x"] [JValue.str "a"] rfl rfl).1

/-- If every row of a prefix is non-blank and the next row is blank, the
scan returns exactly the prefix. -/
theorem takeWhile_nonblank_prefix :
    ∀ (R : List (List String)) (b : List String) (rest : List (List String)),
      (∀ r ∈ R, rowBlank r = false) → rowBlank b = true →
      (R ++ b :: rest).takeWhile (fun r => !rowBlank r) = R := by
  intro R b rest hR hb
  induction R with
  | nil => simp [List.takeWhile_cons, hb]
  | cons a R' ih =>
    have ha : rowBlank a = false := hR a (List.mem_cons_self a R')
    have hR' : ∀ r ∈ R', rowBlank r = false := fun r hr => hR r (List.mem_cons_of_mem a hr)
    simp [List.takeWhile_cons, ha, ih hR']

/-- The defensive per-iteration blank re-check never fires on a blank-free
list. -/
theorem iter_count_nonblank :
    ∀ R : List (List String), (∀ r ∈ R, rowBlank r = false) →
      group_excel_iter_count R = R.length := by
  intro R hR
  induction R with
  | nil => rfl
  | cons a R' ih =>
    have ha : rowBlank a = false := hR a (List.mem_cons_self a R')
    have hR' : ∀ r ∈ R', rowBlank r = false := fun r hr => hR r (List.mem_cons_of_mem a hr)
    simp [group_excel_iter_count, ha, ih hR']

/-- C8: for a sheet whose rows from `start_row` are R1 ... Rk (non-blank)
followed by a fully-blank row and anything after, `load_excel_rows` returns
exactly R1 ... Rk in sheet order and `group_excel` runs its actions list
exactly k times. -/
theorem blank_row_halt_C8 :
    ∀ (sheet : List (List String)) (start_row : Nat)
      (R : List (List String)) (b : List String) (rest : List (List String)),
      sheet.drop (start_row - 1) = R ++ b :: rest →
      (∀ r ∈ R, rowBlank r = false) →
      rowBlank b = true →
      load_excel_rows sheet start_row = R
        ∧ exec_step_group_excel sheet start_row = R.length := by
  intro sheet start_row R b rest hdrop hR hb
  have hload : load_excel_rows sheet start_row = R := by
    rw [load_excel_rows, hdrop]
    exact takeWhile_nonblank_prefix R b rest hR hb
  exact ⟨hload, by rw [exec_step_group_excel, hload]; exact iter_count_nonblank R hR⟩

/-- Witness for C8: header row, one data row, a blank row, and a trailing
row give exactly one iteration with `start_row = 2`. -/
theorem blank_row_halt_C8_witness :
    load_excel_rows [["h"], ["a"], [""], ["z"]] 2 = [["a"]]
      ∧ exec_step_group_excel [["h"], ["a"], [""], ["z"]] 2 = 1 :=
  blank_row_halt_C8 [["h"], ["a"], [""], ["z"]] 2 [["a"]] [""] [["z"]]
    rfl (by decide) (by decide)

/-- An exact-key hit among entries whose value at that key is empty is
empty. -/
theorem lookupKey_empty :
    ∀ (d : List (String × String)) (key : String) (v : String),
      (∀ kv ∈ d, kv.1 = key → kv.2 = "") → lookupKey d key = some v → v = "" := by
  intro d key v hd
  induction d with
  | nil => intro h; simp [lookupKey] at h
  | cons kv rest ih =>
    intro h
    rw [lookupKey] at h
    by_cases hk : kv.1 = key
    · rw [if_pos hk] at h
      have h2 := hd kv (List.mem_cons_self kv rest) hk
      cases h
      exact h2
    · rw [if_neg hk] at h
      exact ih (fun x hx => hd x (List.mem_cons_of_mem kv hx)) h

/-- A case-insensitive hit among entries whose value at that key is empty is
empty. -/
theorem lookupKeyCI_empty :
    ∀ (d : List (String × String)) (key : String) (v : String),
      (∀ kv ∈ d, pyLower kv.1 = pyLower key → kv.2 = "") →
      lookupKeyCI d key = some v → v = "" := by
  intro d key v hd
  induction d with
  | nil => intro h; simp [lookupKeyCI] at h
  | cons kv rest ih =>
    intro h
    rw [lookupKeyCI] at h
    by_cases hk : pyLower kv.1 = pyLower key
    · rw [if_pos hk] at h
      have h2 := hd kv (List.mem_cons_self kv rest) hk
      cases h
      exact h2
    · rw [if_neg hk] at h
      exact ih (fun x hx => hd x (List.mem_cons_of_mem kv hx)) h

/-- Under the all-aliases-empty hypothesis, the resolved write payload is
absent or the empty string. -/
theorem writePayload_empty :
    ∀ step : List (String × String),
      (∀ kv ∈ step,
        (kv.1 = "write" ∨ kv.1 = "value" ∨ kv.1 = "text" ∨ pyLower kv.1 = "write") →
          kv.2 = "") →
      writePayload step = none ∨ writePayload step = some "" := by
  intro step H
  rw [writePayload, get_key]
  cases h1 : lookupKey step "write" with
  | some v =>
    right
    rw [lookupKey_empty step "write" v (fun kv hkv hk => H kv hkv (Or.inl hk)) h1]
  | none =>
    rw [lookupAlts]
    cases h2 : lookupKey step "value" with
    | some v =>
      right
      rw [lookupKey_empty step "value" v (fun kv hkv hk => H kv hkv (Or.inr (Or.inl hk))) h2]
    | none =>
      rw [lookupAlts]
      cases h3 : lookupKey step "text" with
      | some v =>
        right
        rw [lookupKey_empty step "text" v
          (fun kv hkv hk => H kv hkv (Or.inr (Or.inr (Or.inl hk)))) h3]
      | none =>
        rw [lookupAlts]
        cases h4 : lookupKeyCI step "write" with
        | some v =>
          right
          rw [lookupKeyCI_empty step "write" v
            (fun kv hkv hk => H kv hkv
              (Or.inr (Or.inr (Or.inr (hk.trans (by decide)))))) h4]
        | none => left; rfl

/-- C10: a write step whose payload is the empty string under every accepted
alias (`write`, `value`, `text`, and the case-insensitive `write` fallback)
raises the missing-payload error — `if not text` cannot tell an explicitly
present empty payload from an absent one. -/
theorem empty_write_payload_C10 :
    ∀ (step : List (String × String)) (count index : Nat)
      (ignore_error : Bool) (sleep : Option Nat),
      (∀ kv ∈ step,
        (kv.1 = "write" ∨ kv.1 = "value" ∨ kv.1 = "text" ∨ pyLower kv.1 = "write") →
          kv.2 = "") →
      exec_step_write (writePayload step) count index ignore_error sleep
        = Except.error missingWriteMsg := by
  intro step count index ig sl H
  rcases writePayload_empty step H with h | h <;> rw [h] <;> rfl

/-- Witness for C10: the step `{"write": "", "value": ""}` raises the
missing-payload error even with matches available. -/
theorem empty_write_payload_C10_witness :
    exec_step_write (writePayload [("write", ""), ("value", "")]) 1 0 false none
      = Except.error missingWriteMsg :=
  empty_write_payload_C10 [("write", ""), ("value", "")] 1 0 false none (by decide)

/-- C3 (amended): the per-step sleep runs after the executor returns on the
successful click path; a click whose failure was ignored returns early
without sleeping; and the write executor never executes the per-step sleep
on any path. -/
theorem step_sleep_behavior_C3 :
    ∀ (count index : Nat) (clickFails ignore_error : Bool) (sleep : Option Nat)
      (payload : Option String) (tr : List Ev),
      (index < count → clickFails = false →
        exec_step_click count index clickFails ignore_error sleep
          = Except.ok (Ev.clicked :: sleepEvents sleep))
      ∧ (ignore_error = true → (count = 0 ∨ count ≤ index ∨ clickFails = true) →
          exec_step_click count index clickFails ignore_error sleep = Except.ok [])
      ∧ (exec_step_write payload count index ignore_error sleep = Except.ok tr →
          ∀ s, Ev.slept s ∉ tr) := by
  refine fun count index cf ig sl payload tr => ⟨?_, ?_, ?_⟩
  · intro hlt hcf
    subst hcf
    have h0 : ¬count = 0 := by omega
    have h1 : ¬count ≤ index := by omega
    simp [exec_step_click, wait_and_click, h0, h1]
  · intro hig hcase
    subst hig
    rcases hcase with h | h | h
    · simp [exec_step_click, wait_and_click, h]
    · by_cases h0 : count = 0 <;> simp [exec_step_click, wait_and_click, h0, h]
    · subst h
      by_cases h0 : count = 0 <;> by_cases h1 : count ≤ index <;>
        simp [exec_step_click, wait_and_click, h0, h1]
  · intro hw s
    cases payload with
    | none => simp [exec_step_write] at hw
    | some t =>
      by_cases ht : t = ""
      · simp [exec_step_write, ht] at hw
      · by_cases h0 : count = 0
        · cases ig <;> simp [exec_step_write, ht, h0] at hw
          subst hw
          simp
        · by_cases h1 : count ≤ index
          · cases ig <;> simp [exec_step_write, ht, h0, h1] at hw
            subst hw
            simp
          · simp [exec_step_write, ht, h0, h1] at hw
            subst hw
            simp

/-- Witness for C3: a successful click with one match and `sleep: 2` ends
with the sleep event. -/
theorem step_sleep_behavior_C3_witness :
    exec_step_click 1 0 false false (some 2) = Except.ok [Ev.clicked, Ev.slept 2] :=
  (step_sleep_behavior_C3 1 0 false false (some 2) none []).1 (by omega) rfl

/-- C7: for inputs without stray surrounding whitespace (tag and class equal
to their own strip, attribute name non-empty when present), the selector
builder returns exactly the string
`{tag or "*"}{class part}{attribute part}` of the specification. -/
theorem selector_builder_C7 :
    ∀ (tag cls attr value : Option String),
      (∀ t, tag = some t → pyStrip t = t) →
      (∀ s, cls = some s → pyStrip s = s) →
      attr ≠ some "" →
      build_css_selector tag cls attr value
        = claimTagPart tag ++ claimClassPart cls ++ claimAttrPart attr value := by
  intro tag cls attr value htag hcls hattr
  have htageq : pyStrip (pyOrStr tag "*") = claimTagPart tag := by
    cases tag with
    | none => rfl
    | some t =>
      by_cases ht : t = ""
      · subst ht; rfl
      · have hst : pyStrip t = t := htag t rfl
        simp [pyOrStr, pyTruthy, ht, claimTagPart, hst]
  have hclseq : normalize_class_selector cls = claimClassPart cls := by
    cases cls with
    | none => rfl
    | some s =>
      by_cases hs : s = ""
      · subst hs; rfl
      · have hst : pyStrip s = s := hcls s rfl
        simp only [normalize_class_selector, claimClassPart, if_neg hs, hst]
        by_cases hd : startsWithDot s
        · simp [hd]
        · simp only [hd, if_false, Bool.false_eq_true]
          cases hsp : pySplitWs s <;> simp [hsp]
  have hattreq :
      (if pyTruthy attr && value.isSome then
         "[" ++ attr.getD "" ++ "=\"" ++ value.getD "" ++ "\"]"
       else if pyTruthy attr then "[" ++ attr.getD "" ++ "]" else "")
        = claimAttrPart attr value := by
    cases attr with
    | none => cases value <;> rfl
    | some a =>
      have ha : ¬a = "" := fun h => hattr (by rw [h])
      cases value with
      | none => simp [pyTruthy, ha, claimAttrPart]
      | some v => simp [pyTruthy, ha, claimAttrPart]
  simp only [build_css_selector]
  rw [htageq, hclseq, hattreq]

/-- Witness for C7: a concrete quadruple with a multi-word class. -/
theorem selector_builder_C7_witness :
    build_css_selector (some "a") (some "btn primary") (some "href") (some "x")
      = claimTagPart (some "a") ++ claimClassPart (some "btn primary")
          ++ claimAttrPart (some "href") (some "x") :=
  selector_builder_C7 (some "a") (some "btn primary") (some "href") (some "x")
    (by intro t ht; cases ht; rfl)
    (by intro s hs; cases hs; rfl)
    (by decide)

/-- In the non-fatal head case the dispatch count grows by one. -/
theorem dispatchCount_cons (s : RStep) (rest : List RStep)
    (h : (s.fails && !s.ignore) = false) :
    dispatchCount (s :: rest) = dispatchCount rest + 1 := by
  rw [dispatchCount, dispatchCount, firstFatal, h]
  simp only [Bool.false_eq_true, if_false]
  cases firstFatal rest <;> simp

/-- Closed form of the dispatch loop. -/
theorem runLoopEv_eq :
    ∀ (wf : List RStep) (n : Nat),
      runLoopEv wf n
        = ((dispatchIdxs n (dispatchCount wf)).map RunEv.stepDispatched,
           (firstFatal wf).map (fun i => i + n)) := by
  intro wf
  induction wf with
  | nil => intro n; rfl
  | cons s rest ih =>
    intro n
    cases hc : (s.fails && !s.ignore) with
    | true =>
      rw [runLoopEv]
      simp only [hc, if_true]
      rw [dispatchCount, firstFatal, hc]
      simp [dispatchIdxs]
    | false =>
      rw [runLoopEv]
      simp only [hc, Bool.false_eq_true, if_false]
      rw [ih (n + 1), dispatchCount_cons s rest hc, firstFatal, hc]
      simp only [Bool.false_eq_true, if_false, dispatchIdxs, Prod.mk.injEq, List.map_cons]
      refine ⟨trivial, ?_⟩
      cases firstFatal rest <;> simp
      omega

/-- C6: the runner never closes the browser; it dispatches exactly the steps
up to and including the first unignored failure (or all of them), then
waits for the user to close every page, and only after that wait re-raises
the fatal error — or, on normal completion, raises nothing. -/
theorem runner_keepalive_C6 :
    ∀ wf : List RStep,
      run wf
          = ((dispatchIdxs 0 (dispatchCount wf)).map RunEv.stepDispatched) ++
              RunEv.waitAllPagesClosed ::
                (match firstFatal wf with
                 | some i => [RunEv.reraised i]
                 | none => [RunEv.completedNormally])
        ∧ RunEv.closedBrowser ∉ run wf := by
  intro wf
  have hmain :
      run wf
        = ((dispatchIdxs 0 (dispatchCount wf)).map RunEv.stepDispatched) ++
            RunEv.waitAllPagesClosed ::
              (match firstFatal wf with
               | some i => [RunEv.reraised i]
               | none => [RunEv.completedNormally]) := by
    rw [run, runLoopEv_eq wf 0]
    cases firstFatal wf <;> simp
  refine ⟨hmain, ?_⟩
  rw [hmain]
  intro hmem
  rcases List.mem_append.mp hmem with h | h
  · rcases List.mem_map.mp h with ⟨i, _, hi⟩
    exact RunEv.noConfusion hi
  · rcases List.mem_cons.mp h with h2 | h2
    · exact RunEv.noConfusion h2
    · cases hf : firstFatal wf <;> rw [hf] at h2 <;> simp at h2

/-- Filtering with an everywhere-true predicate is the identity. -/
theorem filter_all_true {α : Type} (p : α → Bool) :
    ∀ l : List α, (∀ f ∈ l, p f = true) → l.filter p = l := by
  intro l h
  induction l with
  | nil => rfl
  | cons a rest ih =>
    rw [List.filter_cons, if_pos (h a (List.mem_cons_self a rest))]
    rw [ih (fun f hf => h f (List.mem_cons_of_mem a hf))]

/-- When every fragment is a plain JSON array (and, if a spreadsheet was
given, none starts with a `group_excel` header), each fragment contributes
exactly its own item list. -/
theorem contribution_eq_items (et : Bool) :
    ∀ l : List (String × JValue),
      (∀ f ∈ l, isJsonArray f.2 = true) →
      (∀ f ∈ l, et = true → leadingGroupExcel f.2 = false) →
      l.map (fun f => fragmentContribution et f.2) = l.map (fun f => jItems f.2) := by
  intro l h1 h2
  apply List.map_congr_left
  intro f hf
  have harr := h1 f hf
  have hhdr := h2 f hf
  cases hv : f.2 with
  | arr items =>
    rw [hv] at hhdr
    cases et with
    | false => simp [fragmentContribution, jItems]
    | true =>
      have : leadingIsGroupExcel items = false := by
        have := hhdr rfl
        simpa [leadingGroupExcel] using this
      simp [fragmentContribution, jItems, this]
  | str s => rw [hv] at harr; simp [isJsonArray] at harr
  | num n => rw [hv] at harr; simp [isJsonArray] at harr
  | bool b => rw [hv] at harr; simp [isJsonArray] at harr
  | null => rw [hv] at harr; simp [isJsonArray] at harr
  | obj fs => rw [hv] at harr; simp [isJsonArray] at harr

/-- C1 (amended): over a directory of numerically named fragments with
pairwise-distinct integer stems, each a JSON list, none starting with a
`group_excel` header when a spreadsheet path is given, and with a non-empty
concatenation, the assembler concatenates the fragment lists in increasing
integer-stem order (`sortedFs` is the stem-increasing arrangement of the
listing, whatever the listing order) and wraps the result in the single
`group_excel` element exactly when a spreadsheet path was given.  (When the
concatenation is empty the assembler instead fails and writes nothing; see
the counterexample.) -/
theorem assembler_merge_sorted_C1 :
    ∀ (files sortedFs : List (String × JValue)) (excel : Option String),
      files.Perm sortedFs →
      sortedFs.Pairwise stemLtRel →
      (∀ f ∈ files, isNumericJsonName f.1 = true) →
      (∀ f ∈ files, isJsonArray f.2 = true) →
      (∀ f ∈ files, excelTruthy excel = true → leadingGroupExcel f.2 = false) →
      (sortedFs.map (fun f => jItems f.2)).flatten ≠ [] →
      merge_logic files excel
        = some
            (if excelTruthy excel then
              [groupExcelWrap (excel.getD "")
                ((sortedFs.map (fun f => jItems f.2)).flatten)]
            else (sortedFs.map (fun f => jItems f.2)).flatten) := by
  intro files sortedFs excel hperm hsorted hnum harr hnohdr hne
  have hfilter : files.filter (fun f => isNumericJsonName f.1) = files :=
    filter_all_true _ files hnum
  have hsort : List.insertionSort stemLeRel files = sortedFs := by
    apply sorted_perm_eq (fun f => stemKey f.1)
    · exact (List.perm_insertionSort stemLeRel files).trans hperm
    · exact List.sorted_insertionSort stemLeRel files
    · exact hsorted
  have harr' : ∀ f ∈ sortedFs, isJsonArray f.2 = true :=
    fun f hf => harr f (hperm.mem_iff.mpr hf)
  have hnohdr' : ∀ f ∈ sortedFs, excelTruthy excel = true → leadingGroupExcel f.2 = false :=
    fun f hf => hnohdr f (hperm.mem_iff.mpr hf)
  have hcontrib := contribution_eq_items (excelTruthy excel) sortedFs harr' hnohdr'
  have hfe : files.isEmpty = false := by
    cases hfiles : files with
    | nil =>
      exfalso
      rw [hfiles] at hperm
      have h0 : sortedFs = [] := hperm.symm.eq_nil
      rw [h0] at hne
      exact hne rfl
    | cons a l => rfl
  have hme : ((sortedFs.map (fun f => jItems f.2)).flatten).isEmpty = false := by
    cases hm : (sortedFs.map (fun f => jItems f.2)).flatten with
    | nil => exact absurd hm hne
    | cons a l => rfl
  rw [merge_logic]
  simp only [hfilter, hfe, Bool.false_eq_true, if_false, hsort, hcontrib, hme]
  cases excelTruthy excel <;> simp

/-- Witness for C1: fragments listed in reverse order `2.json, 1.json` with
a spreadsheet path merge to a single `group_excel` element whose actions
are the two lists concatenated in stem order. -/
theorem assembler_merge_sorted_C1_witness :
    merge_logic
        [("2.json", JValue.arr [JValue.str "b"]), ("1.json", JValue.arr [JValue.str "a"])]
        (some "s.xlsx")
      = some [groupExcelWrap "s.xlsx" [JValue.str "a", JValue.str "b"]] :=
  assembler_merge_sorted_C1
    [("2.json", JValue.arr [JValue.str "b"]), ("1.json", JValue.arr [JValue.str "a"])]
    [("1.json", JValue.arr [JValue.str "a"]), ("2.json", JValue.arr [JValue.str "b"])]
    (some "s.xlsx")
    (List.Perm.swap ("1.json", JValue.arr [JValue.str "a"])
      ("2.json", JValue.arr [JValue.str "b"]) [])
    (by decide)
    (by decide)
    (by decide)
    (by decide)
    (List.cons_ne_nil (JValue.str "a") [JValue.str "b"])
